import Mathlib

/-!
# Verification of the tile/chunk collision core

A shallow embedding, in Lean 4, of the collision / chunk-streaming core of the
game engine (files `src/custom_types/gameplay.py`, `src/game_objects/world.py`,
`src/game_objects/entities.py`).  Python floats are modelled by `ℚ`: every
operation the embedded code performs (addition, subtraction, halving,
comparison, `min`/`max`) is exact on the dyadic values involved, so `ℚ`
reproduces the float semantics on the inputs considered here.  Python `set`s
are modelled by `Finset`s over types with decidable equality.
-/

namespace Game

/-! ## `FloatRect` (src/custom_types/gameplay.py) -/

/-- The contact sides returned by `FloatRect.contact_with`
(`"top" | "bottom" | "left" | "right"` in the source). -/
inductive Side
  | top
  | bottom
  | left
  | right
deriving DecidableEq, Repr

/-- `FloatRect(x, y, width, height)`: an axis-aligned rectangle with
floating-point fields, embedded with `ℚ` coordinates. -/
structure FloatRect where
  x : ℚ
  y : ℚ
  width : ℚ
  height : ℚ
deriving DecidableEq, Repr

namespace FloatRect

/-- `FloatRect.left` property. -/
def left (r : FloatRect) : ℚ := r.x

/-- `FloatRect.right` property. -/
def right (r : FloatRect) : ℚ := r.x + r.width

/-- `FloatRect.top` property. -/
def top (r : FloatRect) : ℚ := r.y

/-- `FloatRect.bottom` property. -/
def bottom (r : FloatRect) : ℚ := r.y + r.height

/-- `FloatRect.centerx` property. -/
def centerx (r : FloatRect) : ℚ := r.x + r.width / 2

/-- `FloatRect.centery` property. -/
def centery (r : FloatRect) : ℚ := r.y + r.height / 2

/-- The `right` setter: `self.x = value - self.width`. -/
def setRight (r : FloatRect) (v : ℚ) : FloatRect := { r with x := v - r.width }

/-- The `left` setter: `self.x = value`. -/
def setLeft (r : FloatRect) (v : ℚ) : FloatRect := { r with x := v }

/-- The `top` setter: `self.y = value`. -/
def setTop (r : FloatRect) (v : ℚ) : FloatRect := { r with y := v }

/-- The `bottom` setter: `self.y = value - self.height`. -/
def setBottom (r : FloatRect) (v : ℚ) : FloatRect := { r with y := v - r.height }

/-- `FloatRect.colliderect`: strict overlap test on both axes, written in the
source as centre-distance comparisons. -/
def colliderect (r q : FloatRect) : Prop :=
  |r.centerx - q.centerx| < r.width * (1/2) + q.width / 2 ∧
    |r.centery - q.centery| < r.height * (1/2) + q.height / 2

instance : DecidablePred fun p : FloatRect × FloatRect => colliderect p.1 p.2 :=
  fun _ => instDecidableAnd

instance (r q : FloatRect) : Decidable (colliderect r q) := instDecidableAnd

/-- `FloatRect.contact_with`: returns the side of `r` whose edge exactly
touches the opposing edge of `q`, guarded by a strict overlap test on the
perpendicular axis; checks run in source order top, bottom, left, right. -/
def contact_with (r q : FloatRect) : Option Side :=
  if |r.centerx - q.centerx| < (r.width + q.width) / 2 ∧ r.top = q.bottom then
    some .top
  else if |r.centerx - q.centerx| < (r.width + q.width) / 2 ∧ r.bottom = q.top then
    some .bottom
  else if |r.centery - q.centery| < (r.height + q.height) / 2 ∧ r.left = q.right then
    some .left
  else if |r.centery - q.centery| < (r.height + q.height) / 2 ∧ r.right = q.left then
    some .right
  else
    none

end FloatRect

/-! ## Tiles and ramps (src/game_objects/world.py) -/

/-- `Tile.SIZE`. -/
def TILE_SIZE : ℚ := 48

/-- `Tile.COLLISION_TOLERANCE`. -/
def COLLISION_TOLERANCE : ℚ := 15

/-- The shape kinds a tile can have, per `TileData.type`: the three
rectangular kinds handled by the `Tile` class and the four ramp orientations
handled by the `Ramp` subclass (`Ramp.ramp_types`). -/
inductive TileKind
  | full
  | topSlab
  | bottomSlab
  | rampTopLeft
  | rampTopRight
  | rampBottomLeft
  | rampBottomRight
deriving DecidableEq, Repr

namespace TileKind

/-- Whether the kind is handled by the base `Tile` collision methods
(`"full" | "top_slab" | "bottom_slab"` in `Tile.__new__`). -/
def isRect : TileKind → Bool
  | .full | .topSlab | .bottomSlab => true
  | _ => false

/-- For a ramp kind, whether `self.type[0] == TOP` (flat horizontal edge at
the top of the cell). -/
def rampIsTop : TileKind → Bool
  | .rampTopLeft | .rampTopRight => true
  | _ => false

/-- For a ramp kind, whether `self.type[1] == LEFT`. -/
def rampIsLeft : TileKind → Bool
  | .rampTopLeft | .rampBottomLeft => true
  | _ => false

end TileKind

/-- A middle-ground tile object: its world-space hitbox rectangle, shape kind
and the `TileData` properties the collision/friction code reads. -/
structure Tile where
  rect : FloatRect
  kind : TileKind
  collision : Bool
  friction : ℚ
deriving DecidableEq, Repr

namespace Tile

/-- `Tile._set_rect` / `Ramp._set_rect`: the hitbox of a tile at local grid
position `(x, y)` in a chunk whose top-left corner is `chunkPos`.  Full tiles
and ramps occupy one whole cell; a top slab is the top half and a bottom slab
the bottom half of the cell. -/
def setRect (chunkPos : ℚ × ℚ) (x y : ℚ) (kind : TileKind) : FloatRect :=
  match kind with
  | .topSlab =>
      ⟨chunkPos.1 + x * TILE_SIZE, chunkPos.2 + y * TILE_SIZE, TILE_SIZE, TILE_SIZE / 2⟩
  | .bottomSlab =>
      ⟨chunkPos.1 + x * TILE_SIZE, chunkPos.2 + (y + 1/2) * TILE_SIZE, TILE_SIZE, TILE_SIZE / 2⟩
  | _ =>
      ⟨chunkPos.1 + x * TILE_SIZE, chunkPos.2 + y * TILE_SIZE, TILE_SIZE, TILE_SIZE⟩

/-- `Tile.entity_x_collision`, for the rectangular tile kinds, parameterised by
the tile's hitbox `trect`.  Returns the (possibly clamped) entity rectangle
together with the reported contact side. -/
def baseXCollision (trect : FloatRect) (r : FloatRect) (xMove : ℚ) :
    FloatRect × Option Side :=
  if r.colliderect trect then
    if r.bottom - trect.top < COLLISION_TOLERANCE then
      (r, none)
    else
      let r' :=
        if xMove > 0 then r.setRight trect.left
        else if xMove < 0 then r.setLeft trect.right
        else r
      (r', r'.contact_with trect)
  else
    (r, r.contact_with trect)

/-- `Tile.entity_y_collision`, for the rectangular tile kinds. -/
def baseYCollision (trect : FloatRect) (r : FloatRect) (yMove : ℚ) :
    FloatRect × Option Side :=
  if r.colliderect trect then
    let r' :=
      if yMove > 0 ∧ trect.bottom - r.top > COLLISION_TOLERANCE then
        r.setBottom trect.top
      else if yMove < 0 ∧ r.bottom - trect.top > COLLISION_TOLERANCE then
        r.setTop trect.bottom
      else r
    (r', r'.contact_with trect)
  else
    (r, r.contact_with trect)

/-- `Ramp.__get_collision_height`: the y-coordinate of the ramp surface under
the entity, linear in the entity's horizontal position and clamped to the
cell height. -/
def rampCollisionHeight (t : Tile) (r : FloatRect) : ℚ :=
  let heightOffset :=
    if t.kind.rampIsLeft then min (t.rect.right - r.left) t.rect.height
    else min (r.right - t.rect.left) t.rect.height
  if t.kind.rampIsTop then t.rect.top + heightOffset
  else t.rect.bottom - heightOffset

/-- `Ramp.entity_y_collision`. For a `bottom_*` ramp the source recomputes the
collision height with the same formulas before clamping; both computations are
written out here exactly as in the source. -/
def rampYCollision (t : Tile) (r : FloatRect) (yMove : ℚ) :
    FloatRect × Option Side :=
  if r.colliderect t.rect then
    if yMove < 0 ∧ t.kind.rampIsTop then
      let collisionHeight := rampCollisionHeight t r
      if r.top ≤ collisionHeight then (r.setTop collisionHeight, some .top)
      else (r, none)
    else if yMove > 0 ∧ ¬ t.kind.rampIsTop then
      let collisionHeight :=
        if t.kind.rampIsLeft then
          t.rect.bottom - min (t.rect.right - r.left) t.rect.height
        else
          t.rect.bottom - min (r.right - t.rect.left) t.rect.height
      if r.bottom ≥ collisionHeight then (r.setBottom collisionHeight, some .bottom)
      else (r, none)
    else (r, none)
  else (r, none)

/-- `Ramp.entity_x_collision`: delegates the clamping to the base-class method
when the entity's vertical span strictly crosses the ramp's flat horizontal
edge, but always returns `None` (the method has no return statement). -/
def rampXCollision (t : Tile) (r : FloatRect) (xMove : ℚ) :
    FloatRect × Option Side :=
  if ¬ t.kind.rampIsTop then
    if r.top < t.rect.bottom ∧ t.rect.bottom < r.bottom then
      ((baseXCollision t.rect r xMove).1, none)
    else (r, none)
  else
    if r.top < t.rect.top ∧ t.rect.top < r.bottom then
      ((baseXCollision t.rect r xMove).1, none)
    else (r, none)

/-- `Ramp.get_outline`: the set of hitbox corner positions of a ramp — the
two corners of its flat horizontal edge plus the two corners of its flat
vertical edge (duplicates collapse in the set). -/
def get_outline (t : Tile) (offset : ℚ × ℚ) : Finset (ℚ × ℚ) :=
  (if t.kind.rampIsTop then
      ({(t.rect.left + offset.1, t.rect.top + offset.2),
        (t.rect.right + offset.1, t.rect.top + offset.2)} : Finset (ℚ × ℚ))
    else
      {(t.rect.left + offset.1, t.rect.bottom + offset.2),
       (t.rect.right + offset.1, t.rect.bottom + offset.2)}) ∪
  (if t.kind.rampIsLeft then
      ({(t.rect.left + offset.1, t.rect.top + offset.2),
        (t.rect.left + offset.1, t.rect.bottom + offset.2)} : Finset (ℚ × ℚ))
    else
      {(t.rect.right + offset.1, t.rect.top + offset.2),
       (t.rect.right + offset.1, t.rect.bottom + offset.2)})

/-- Dynamic dispatch of `entity_x_collision` over the tile's class
(`Tile` for rectangular kinds, `Ramp` otherwise). -/
def entityXCollision (t : Tile) (r : FloatRect) (xMove : ℚ) :
    FloatRect × Option Side :=
  if t.kind.isRect then baseXCollision t.rect r xMove
  else rampXCollision t r xMove

/-- Dynamic dispatch of `entity_y_collision` over the tile's class. -/
def entityYCollision (t : Tile) (r : FloatRect) (yMove : ℚ) :
    FloatRect × Option Side :=
  if t.kind.isRect then baseYCollision t.rect r yMove
  else rampYCollision t r yMove

end Tile

/-! ## Contact sets and chunk-level collision routing -/

/-- `CollisionEntity.tile_contacts`: the per-frame mapping
side → set of contacted tiles, with the extra `"any"` key. -/
structure Contacts where
  top : Finset Tile
  bottom : Finset Tile
  left : Finset Tile
  right : Finset Tile
  any : Finset Tile
deriving DecidableEq

namespace Contacts

/-- The empty contact state, as produced by clearing every side set. -/
def empty : Contacts := ⟨∅, ∅, ∅, ∅, ∅⟩

/-- Look up one side's set. -/
def get (c : Contacts) : Side → Finset Tile
  | .top => c.top
  | .bottom => c.bottom
  | .left => c.left
  | .right => c.right

/-- `side_contacts[contact_side].add(tile); side_contacts["any"].add(tile)`. -/
def add (c : Contacts) (s : Side) (t : Tile) : Contacts :=
  match s with
  | .top => { c with top := insert t c.top, any := insert t c.any }
  | .bottom => { c with bottom := insert t c.bottom, any := insert t c.any }
  | .left => { c with left := insert t c.left, any := insert t c.any }
  | .right => { c with right := insert t c.right, any := insert t c.any }

end Contacts

/-- A loaded chunk's collidable content, for collision purposes: its
middle-ground tiles.  The source iterates a Python `set`; the iteration order
is unspecified there, and is made explicit here as a list order. -/
def ChunkTiles := List Tile

/-- The loaded-chunk working set an entity collides against
(`Entity.collision_chunks.values()`), in dictionary value order. -/
def World := List ChunkTiles

/-- One step of `Chunk.entity_x_collision`'s loop: skip non-collidable tiles,
otherwise run the tile's collision and record a non-`None` contact side. -/
def chunkTileStepX (xMove : ℚ) (acc : FloatRect × Contacts) (t : Tile) :
    FloatRect × Contacts :=
  if t.collision then
    let res := Tile.entityXCollision t acc.1 xMove
    match res.2 with
    | none => (res.1, acc.2)
    | some s => (res.1, acc.2.add s t)
  else acc

/-- One step of `Chunk.entity_y_collision`'s loop. -/
def chunkTileStepY (yMove : ℚ) (acc : FloatRect × Contacts) (t : Tile) :
    FloatRect × Contacts :=
  if t.collision then
    let res := Tile.entityYCollision t acc.1 yMove
    match res.2 with
    | none => (res.1, acc.2)
    | some s => (res.1, acc.2.add s t)
  else acc

/-- `Chunk.entity_x_collision`: processes the entity x collision for all the
tiles in the chunk, accumulating side contacts. -/
def chunkXCollision (ch : ChunkTiles) (r : FloatRect) (xMove : ℚ)
    (c : Contacts) : FloatRect × Contacts :=
  ch.foldl (chunkTileStepX xMove) (r, c)

/-- `Chunk.entity_y_collision`. -/
def chunkYCollision (ch : ChunkTiles) (r : FloatRect) (yMove : ℚ)
    (c : Contacts) : FloatRect × Contacts :=
  ch.foldl (chunkTileStepY yMove) (r, c)

/-! ## `CollisionEntity` motion integration (src/game_objects/entities.py) -/

/-- `DEFUALT_GRAVITY` (sic) from `game_objects/__init__.py`. -/
def DEFAULT_GRAVITY : ℚ := 2000

/-- `NEGLEGIBE_VELOCITY` (sic) from `game_objects/__init__.py`. -/
def NEGLIGIBLE_VELOCITY : ℚ := 10

/-- `FRICTION_MULTIPLIER` from `world.py`. -/
def FRICTION_MULTIPLIER : ℚ := 10000

/-- `Entity.MAX_VELOCITY` (per-axis bound). -/
def MAX_VELOCITY : ℚ := 5000

/-- `math_functions.clamp`: `min(Max, max(value, Min))`. -/
def clamp (value lo hi : ℚ) : ℚ := min hi (max value lo)

/-- `math_functions.sign`: `0` for `0`, else `abs(value)/value`. -/
def sign (v : ℚ) : ℚ := if v = 0 then 0 else |v| / v

/-- The mutable state of a `CollisionEntity` that the motion/collision
pipeline touches: hitbox rectangle, velocity vector, and the per-frame tile
contact sets. -/
structure EntityState where
  rect : FloatRect
  velocity : ℚ × ℚ
  tile_contacts : Contacts
deriving DecidableEq

namespace EntityState

/-- `Entity.accelerate`: increment the velocity by `value * delta_time` and
clamp each axis to `MAX_VELOCITY`. -/
def accelerate (st : EntityState) (value : ℚ × ℚ) (dt : ℚ) : EntityState :=
  let v := (st.velocity.1 + value.1 * dt, st.velocity.2 + value.2 * dt)
  { st with
    velocity := (clamp v.1 (-MAX_VELOCITY) MAX_VELOCITY,
                 clamp v.2 (-MAX_VELOCITY) MAX_VELOCITY) }

/-- `CollisionEntity.move`: scale the displacement by `delta_time`, clear all
five contact sets, apply and resolve the y component against every loaded
chunk, then apply and resolve the x component. -/
def move (world : World) (st : EntityState) (value : ℚ × ℚ) (dt : ℚ) :
    EntityState :=
  let xMove := value.1 * dt
  let yMove := value.2 * dt
  let r1 : FloatRect := { st.rect with y := st.rect.y + yMove }
  let (r2, c2) :=
    world.foldl (fun acc ch => chunkYCollision ch acc.1 yMove acc.2)
      (r1, Contacts.empty)
  let r3 : FloatRect := { r2 with x := r2.x + xMove }
  let (r4, c4) :=
    world.foldl (fun acc ch => chunkXCollision ch acc.1 xMove acc.2) (r3, c2)
  { st with rect := r4, tile_contacts := c4 }

/-- `CollisionEntity.update_motion_variables`: apply gravity acceleration
unless a bottom contact is present. -/
def update_motion_variables (g : ℚ) (st : EntityState) (dt : ℚ) : EntityState :=
  if st.tile_contacts.bottom = ∅ then
    st.accelerate (0, g * DEFAULT_GRAVITY) dt
  else st

/-- `CollisionEntity.process_collision`: clamp the velocity against the
contact state, side by side. -/
def process_collision (st : EntityState) : EntityState :=
  let v1 :=
    if st.tile_contacts.top ≠ ∅ then (st.velocity.1, max st.velocity.2 0)
    else st.velocity
  let v2 := if st.tile_contacts.bottom ≠ ∅ then (v1.1, min v1.2 0) else v1
  let v3 := if st.tile_contacts.left ≠ ∅ then (max v2.1 0, v2.2) else v2
  let v4 := if st.tile_contacts.right ≠ ∅ then (min v3.1 0, v3.2) else v3
  { st with velocity := v4 }

/-- `CollisionEntity.get_tile_friction` at the default `"bottom"` side:
the maximum friction among bottom-contacted tiles, starting from `0.0`. -/
def get_tile_friction (st : EntityState) : ℚ :=
  st.tile_contacts.bottom.fold max 0 Tile.friction

/-- `CollisionEntity.process_tile_friction`.  The source guard is
`velocity.magnitude() > NEGLEGIBE_VELOCITY`; squaring both nonnegative sides
gives the equivalent exact test `vx² + vy² > NEGLEGIBE_VELOCITY²` used here,
which avoids the irrational square root. -/
def process_tile_friction (st : EntityState) (dt : ℚ) : EntityState :=
  if st.velocity.1 ^ 2 + st.velocity.2 ^ 2 > NEGLIGIBLE_VELOCITY ^ 2 then
    let direction := -sign st.velocity.1
    { st with
      velocity :=
        (st.velocity.1 +
          min (FRICTION_MULTIPLIER * st.get_tile_friction * dt) |st.velocity.1| *
            direction,
         st.velocity.2) }
  else
    { st with velocity := (0, 0) }

/-- `CollisionEntity.update`: motion variables, base-class positional update
(`move(velocity, dt)`), collision response, tile friction — in that order. -/
def update (world : World) (g : ℚ) (st : EntityState) (dt : ℚ) : EntityState :=
  let st1 := st.update_motion_variables g dt
  let st2 := st1.move world st1.velocity dt
  let st3 := st2.process_collision
  st3.process_tile_friction dt

end EntityState

/-! ## Chunk materialization and tile breaking (src/game_objects/world.py) -/

/-- `Chunk.TILES_PER_SIDE`. -/
def TILES_PER_SIDE : ℤ := 16

/-- The `AIR` tile code `"0"`. -/
def AIR : Char := '0'

/-- `index_to_tile_coordinates`: `index % 16, index // 16`. -/
def index_to_tile_coordinates (i : ℕ) : ℤ × ℤ :=
  ((i : ℤ) % TILES_PER_SIDE, (i : ℤ) / TILES_PER_SIDE)

/-- A middle-ground tile as far as chunk materialization and breaking are
concerned: its local grid position and its tile code. -/
structure MTile where
  x : ℤ
  y : ℤ
  code : Char
deriving DecidableEq, Repr

/-- `Chunk.set_middle_ground`: materialize the middle-ground tile set from
the raw code string, skipping air codes and positions recorded as broken. -/
def set_middle_ground (codes : List Char) (broken : Finset (ℤ × ℤ)) :
    Finset MTile :=
  (codes.enum.filterMap fun ic =>
      if ic.2 ≠ AIR ∧ index_to_tile_coordinates ic.1 ∉ broken then
        some ⟨(index_to_tile_coordinates ic.1).1,
              (index_to_tile_coordinates ic.1).2, ic.2⟩
      else none).toFinset

/-- A chunk's breakage-relevant state: the live middle-ground tile set and the
`ChunkManager._broken_tiles` log entry for this chunk. -/
structure ChunkState where
  mid : Finset MTile
  log : Finset (ℤ × ℤ)
deriving DecidableEq

/-- The loop condition of `ChunkManager.break_tile`: the tile is breakable and
sits at the target local position. -/
def breakMatch (breakable : Char → Bool) (pos : ℤ × ℤ) (t : MTile) : Prop :=
  breakable t.code = true ∧ (t.x, t.y) = pos

instance (breakable : Char → Bool) (pos : ℤ × ℤ) :
    DecidablePred (breakMatch breakable pos) := fun _ => instDecidableAnd

/-- One non-recursive `ChunkManager.break_tile` call: if a breakable live tile
sits at `pos`, remove it from the live set and record `pos` in the broken log;
otherwise do nothing.  The source iterates the (unordered) live set and
removes the first matching tile; on live sets built by `set_middle_ground`
positions are unique, so removing every matching tile — as the `Finset.filter`
below does — removes exactly that one tile. -/
def break_step (breakable : Char → Bool) (st : ChunkState) (pos : ℤ × ℤ) :
    ChunkState :=
  if (st.mid.filter (breakMatch breakable pos)).Nonempty then
    { mid := st.mid.filter fun t => ¬ breakMatch breakable pos t,
      log := insert pos st.log }
  else st

/-- `ChunkManager.break_tile` with `break_surroundings=True`, written with an
explicit fuel argument because Lean requires a termination witness up front:
after removing the matched tile, recurse into the four axis-adjacent
neighbour positions in source order `(-1,0), (1,0), (0,-1), (0,1)`.
`break_fuel_stable` below proves the fuel is irrelevant once it exceeds the
number of live tiles, which is the claimed termination argument. -/
def break_fuel (breakable : Char → Bool) :
    ℕ → ChunkState → ℤ × ℤ → ChunkState
  | 0, st, _ => st
  | fuel + 1, st, pos =>
    if (st.mid.filter (breakMatch breakable pos)).Nonempty then
      let st1 : ChunkState :=
        { mid := st.mid.filter fun t => ¬ breakMatch breakable pos t,
          log := insert pos st.log }
      let st2 := break_fuel breakable fuel st1 (pos.1 - 1, pos.2)
      let st3 := break_fuel breakable fuel st2 (pos.1 + 1, pos.2)
      let st4 := break_fuel breakable fuel st3 (pos.1, pos.2 - 1)
      break_fuel breakable fuel st4 (pos.1, pos.2 + 1)
    else st

/-- `ChunkManager.break_tile(pos, break_surroundings=True)` itself: run the
fueled recursion with fuel one more than the number of live tiles. -/
def break_tile_rec (breakable : Char → Bool) (st : ChunkState) (pos : ℤ × ℤ) :
    ChunkState :=
  break_fuel breakable (st.mid.card + 1) st pos

/-! ## Chunk streaming (ChunkManager.__get_allowed_chunk_locations) -/

/-- `Chunk.SIZE = Tile.SIZE * TILES_PER_SIDE = 768`. -/
def CHUNK_SIZE : ℚ := TILE_SIZE * 16

/-- The focus chunk `(load_pos.x // Chunk.SIZE, load_pos.y // Chunk.SIZE)`
(Python floor division). -/
def focus_chunk (loadPos : ℚ × ℚ) : ℤ × ℤ :=
  (⌊loadPos.1 / CHUNK_SIZE⌋, ⌊loadPos.2 / CHUNK_SIZE⌋)

/-- `ChunkManager.__get_allowed_chunk_locations`: all chunk coordinates in a
Manhattan diamond of radius `dist` (the manager's `chunk_distance`) around
the focus chunk; `y` ranges over `-dist..dist` and, for each, `x` over
`-(dist-|y|)..(dist-|y|)`. -/
def get_allowed_chunk_locations (loadPos : ℚ × ℚ) (dist : ℤ) :
    Finset (ℤ × ℤ) :=
  let c := focus_chunk loadPos
  (Finset.Icc (-dist) dist).biUnion fun y =>
    (Finset.Icc (-(dist - |y|)) (dist - |y|)).image fun x =>
      (c.1 + x, c.2 + y)

/-! ## `EntityManager.update` (src/game_objects/entities.py) -/

/-- The per-entity state `EntityManager.update` reads: the hitbox rectangle
(whose centre is `Entity.position`) and the two policy flags. -/
structure ManagedEntity where
  rect : FloatRect
  always_update : Bool
  kill_when_out_of_range : Bool
deriving DecidableEq

/-- One iteration of the `EntityManager.update` loop over `(kept, count)`:
kill entities past the kill depth, update and count entities in the proximity
window, kill out-of-range entities flagged `kill_when_out_of_range`, and
retain the rest untouched. -/
def manager_step (process_distance kill_depth : ℚ) (upd : ManagedEntity → ManagedEntity)
    (processPoint : ℚ × ℚ) (acc : List ManagedEntity × ℕ) (e : ManagedEntity) :
    List ManagedEntity × ℕ :=
  if e.rect.y > kill_depth then acc
  else if e.always_update = true ∨
      (|e.rect.centerx - processPoint.1| ≤ process_distance ∧
        |e.rect.centery - processPoint.2| ≤ process_distance / 2) then
    (acc.1 ++ [upd e], acc.2 + 1)
  else if e.kill_when_out_of_range = true then acc
  else (acc.1 ++ [e], acc.2)

/-- `EntityManager.update(delta_time, process_point)`: fold the loop above
over the entity group (in iteration order), returning the surviving entities
and the number of entities whose per-frame `update` was invoked.  The
per-frame entity update itself is abstracted as `upd`. -/
def manager_update (process_distance kill_depth : ℚ)
    (upd : ManagedEntity → ManagedEntity) (processPoint : ℚ × ℚ)
    (entities : List ManagedEntity) : List ManagedEntity × ℕ :=
  entities.foldl (manager_step process_distance kill_depth upd processPoint) ([], 0)

/-! ## Claim theorems -/

/-- **C3.** For a collidable full tile and an entity rectangle whose
horizontal extent strictly overlaps the tile's, for any horizontal move:
if the entity's bottom edge is less than the collision tolerance (15) below
the tile's top edge, x-collision leaves the rectangle unchanged and registers
no left/right contact; with the overlap equal to tolerance−1 no contact at
all is registered; with the overlap equal to tolerance+1 a contact is
registered and the rectangle is clamped to the tile's vertical face. -/
theorem x_collision_tolerance (tx ty ex ey w h fr xMove : ℚ)
    (hw : 0 < w) (hh : 0 < h)
    (hhoriz : |FloatRect.centerx ⟨ex, ey, w, h⟩ -
        FloatRect.centerx ⟨tx, ty, 48, 48⟩| < (w + 48) / 2) :
    (FloatRect.bottom ⟨ex, ey, w, h⟩ - ty < COLLISION_TOLERANCE →
      (Tile.entityXCollision ⟨⟨tx, ty, 48, 48⟩, .full, true, fr⟩
          ⟨ex, ey, w, h⟩ xMove).1 = ⟨ex, ey, w, h⟩ ∧
      (Tile.entityXCollision ⟨⟨tx, ty, 48, 48⟩, .full, true, fr⟩
          ⟨ex, ey, w, h⟩ xMove).2 ≠ some .left ∧
      (Tile.entityXCollision ⟨⟨tx, ty, 48, 48⟩, .full, true, fr⟩
          ⟨ex, ey, w, h⟩ xMove).2 ≠ some .right) ∧
    (FloatRect.bottom ⟨ex, ey, w, h⟩ - ty = COLLISION_TOLERANCE - 1 →
      Tile.entityXCollision ⟨⟨tx, ty, 48, 48⟩, .full, true, fr⟩
          ⟨ex, ey, w, h⟩ xMove = (⟨ex, ey, w, h⟩, none)) ∧
    (FloatRect.bottom ⟨ex, ey, w, h⟩ - ty = COLLISION_TOLERANCE + 1 →
      (0 < xMove →
        Tile.entityXCollision ⟨⟨tx, ty, 48, 48⟩, .full, true, fr⟩
            ⟨ex, ey, w, h⟩ xMove = (⟨tx - w, ey, w, h⟩, some .right)) ∧
      (xMove < 0 →
        Tile.entityXCollision ⟨⟨tx, ty, 48, 48⟩, .full, true, fr⟩
            ⟨ex, ey, w, h⟩ xMove = (⟨tx + 48, ey, w, h⟩, some .left))) := by
  have hXL : ex < tx + 48 := by
    rw [abs_lt] at hhoriz
    simp only [FloatRect.centerx] at hhoriz
    linarith [hhoriz.1, hhoriz.2]
  have hXR : tx < ex + w := by
    rw [abs_lt] at hhoriz
    simp only [FloatRect.centerx] at hhoriz
    linarith [hhoriz.1, hhoriz.2]
  refine ⟨fun hb => ?_, fun hb => ?_, fun hb => ⟨fun hxm => ?_, fun hxm => ?_⟩⟩
  · -- overlap below tolerance: rect untouched, no left/right contact
    simp only [FloatRect.bottom, COLLISION_TOLERANCE] at hb
    simp only [Tile.entityXCollision, TileKind.isRect, if_true, Tile.baseXCollision]
    by_cases hc : FloatRect.colliderect ⟨ex, ey, w, h⟩ ⟨tx, ty, 48, 48⟩
    · rw [if_pos hc, if_pos (by
        simp only [FloatRect.bottom, FloatRect.top, COLLISION_TOLERANCE]; linarith)]
      exact ⟨rfl, by simp, by simp⟩
    · rw [if_neg hc]
      refine ⟨rfl, ?_, ?_⟩ <;>
      · simp only [FloatRect.contact_with, FloatRect.left, FloatRect.right,
          FloatRect.top, FloatRect.bottom]
        split_ifs with h1 h2 h3 h4 <;> simp_all
  · -- overlap exactly tolerance − 1: no contact registered at all
    simp only [FloatRect.bottom, COLLISION_TOLERANCE] at hb
    have hc : FloatRect.colliderect ⟨ex, ey, w, h⟩ ⟨tx, ty, 48, 48⟩ := by
      constructor
      · simp only [FloatRect.centerx]
        calc |ex + w / 2 - (tx + 48 / 2)| < (w + 48) / 2 := hhoriz
          _ = w * (1/2) + 48 / 2 := by ring
      · simp only [FloatRect.centery, abs_lt]
        constructor <;> linarith
    simp only [Tile.entityXCollision, TileKind.isRect, if_true, Tile.baseXCollision,
      if_pos hc]
    rw [if_pos (by
      simp only [FloatRect.bottom, FloatRect.top, COLLISION_TOLERANCE]; linarith)]
  · -- overlap tolerance + 1, moving right: clamp and report "right"
    simp only [FloatRect.bottom, COLLISION_TOLERANCE] at hb
    have hc : FloatRect.colliderect ⟨ex, ey, w, h⟩ ⟨tx, ty, 48, 48⟩ := by
      constructor
      · simp only [FloatRect.centerx]
        calc |ex + w / 2 - (tx + 48 / 2)| < (w + 48) / 2 := hhoriz
          _ = w * (1/2) + 48 / 2 := by ring
      · simp only [FloatRect.centery, abs_lt]
        constructor <;> linarith
    simp only [Tile.entityXCollision, TileKind.isRect, if_true, Tile.baseXCollision,
      if_pos hc]
    rw [if_neg (by
      simp only [FloatRect.bottom, FloatRect.top, COLLISION_TOLERANCE]; linarith)]
    rw [if_pos hxm]
    simp only [FloatRect.setRight, FloatRect.left]
    refine Prod.ext rfl ?_
    simp only [FloatRect.contact_with, FloatRect.left, FloatRect.right,
      FloatRect.top, FloatRect.bottom, FloatRect.centerx, FloatRect.centery]
    rw [if_neg (by
      rintro ⟨habs, -⟩
      rw [abs_lt] at habs
      linarith [habs.1, habs.2])]
    rw [if_neg (by
      rintro ⟨habs, -⟩
      rw [abs_lt] at habs
      linarith [habs.1, habs.2])]
    rw [if_neg (by rintro ⟨-, heq⟩; linarith)]
    rw [if_pos ⟨by rw [abs_lt]; constructor <;> linarith, by ring_nf⟩]
  · -- overlap tolerance + 1, moving left: clamp and report "left"
    simp only [FloatRect.bottom, COLLISION_TOLERANCE] at hb
    have hc : FloatRect.colliderect ⟨ex, ey, w, h⟩ ⟨tx, ty, 48, 48⟩ := by
      constructor
      · simp only [FloatRect.centerx]
        calc |ex + w / 2 - (tx + 48 / 2)| < (w + 48) / 2 := hhoriz
          _ = w * (1/2) + 48 / 2 := by ring
      · simp only [FloatRect.centery, abs_lt]
        constructor <;> linarith
    simp only [Tile.entityXCollision, TileKind.isRect, if_true, Tile.baseXCollision,
      if_pos hc]
    rw [if_neg (by
      simp only [FloatRect.bottom, FloatRect.top, COLLISION_TOLERANCE]; linarith)]
    rw [if_neg (by linarith), if_pos hxm]
    simp only [FloatRect.setLeft, FloatRect.right]
    refine Prod.ext rfl ?_
    simp only [FloatRect.contact_with, FloatRect.left, FloatRect.right,
      FloatRect.top, FloatRect.bottom, FloatRect.centerx, FloatRect.centery]
    rw [if_neg (by
      rintro ⟨habs, -⟩
      rw [abs_lt] at habs
      linarith [habs.1, habs.2])]
    rw [if_neg (by
      rintro ⟨habs, -⟩
      rw [abs_lt] at habs
      linarith [habs.1, habs.2])]
    rw [if_pos ⟨by rw [abs_lt]; constructor <;> linarith, by ring_nf⟩]

/-- Witness for `x_collision_tolerance`: a 48×48 entity over a full tile at
the origin with vertical overlap 16 = tolerance+1, moving right, is clamped
to the tile's left face and contacts on its right side. -/
theorem x_collision_tolerance_witness :
    Tile.entityXCollision ⟨⟨0, 0, 48, 48⟩, .full, true, 0⟩ ⟨0, -32, 48, 48⟩ 1 =
      (⟨0 - 48, -32, 48, 48⟩, some .right) :=
  ((x_collision_tolerance 0 0 0 (-32) 48 48 0 1 (by norm_num) (by norm_num)
      (by norm_num [FloatRect.centerx])).2.2
    (by norm_num [FloatRect.bottom, COLLISION_TOLERANCE])).1 (by norm_num)

/-- **C10.** A collidable rectangular tile and an entity rectangle that do
not overlap but whose `contact_with` test reports a touching side: both
per-axis collision methods leave the rectangle unchanged yet return that
side, and a `move` with zero displacement therefore records the tile in that
side's contact set while leaving the rectangle where it was. -/
theorem edge_contact_registers (t : Tile) (r : FloatRect) (s : Side)
    (hkind : t.kind.isRect = true) (hcol : t.collision = true)
    (hno : ¬ r.colliderect t.rect) (hcontact : r.contact_with t.rect = some s) :
    (∀ xMove : ℚ, Tile.entityXCollision t r xMove = (r, some s)) ∧
    (∀ yMove : ℚ, Tile.entityYCollision t r yMove = (r, some s)) ∧
    (∀ (v : ℚ × ℚ) (c : Contacts) (dt : ℚ),
      (EntityState.move [[t]] ⟨r, v, c⟩ (0, 0) dt).tile_contacts.get s = {t} ∧
      (EntityState.move [[t]] ⟨r, v, c⟩ (0, 0) dt).rect = r) := by
  have hX : ∀ xMove : ℚ, Tile.entityXCollision t r xMove = (r, some s) := by
    intro xMove
    simp only [Tile.entityXCollision, hkind, if_true, Tile.baseXCollision,
      if_neg hno, hcontact]
  have hY : ∀ yMove : ℚ, Tile.entityYCollision t r yMove = (r, some s) := by
    intro yMove
    simp only [Tile.entityYCollision, hkind, if_true, Tile.baseYCollision,
      if_neg hno, hcontact]
  refine ⟨hX, hY, fun v c dt => ?_⟩
  have hmove :
      EntityState.move [[t]] ⟨r, v, c⟩ (0, 0) dt =
        ⟨r, v, (Contacts.empty.add s t).add s t⟩ := by
    simp only [EntityState.move, zero_mul, add_zero, List.foldl,
      chunkYCollision, chunkXCollision, chunkTileStepY, chunkTileStepX,
      hcol, if_true, hX, hY]
  rw [hmove]
  refine ⟨?_, rfl⟩
  cases s <;> simp [Contacts.add, Contacts.get, Contacts.empty]

/-- Witness for `edge_contact_registers`: an entity standing exactly on top
of a full tile (bottom edge equal to the tile's top edge), after a move with
zero displacement, has that tile in its bottom contact set and its rectangle
unmoved. -/
theorem edge_contact_registers_witness :
    (EntityState.move [[⟨⟨0, 0, 48, 48⟩, .full, true, 0⟩]]
        ⟨⟨0, -20, 48, 20⟩, (0, 0), Contacts.empty⟩ (0, 0) 1).tile_contacts.get
        .bottom = {⟨⟨0, 0, 48, 48⟩, .full, true, 0⟩} ∧
    (EntityState.move [[⟨⟨0, 0, 48, 48⟩, .full, true, 0⟩]]
        ⟨⟨0, -20, 48, 20⟩, (0, 0), Contacts.empty⟩ (0, 0) 1).rect =
      ⟨0, -20, 48, 20⟩ :=
  (edge_contact_registers ⟨⟨0, 0, 48, 48⟩, .full, true, 0⟩ ⟨0, -20, 48, 20⟩
      .bottom rfl rfl
      (by norm_num [FloatRect.colliderect, FloatRect.centerx, FloatRect.centery])
      (by norm_num [FloatRect.contact_with, FloatRect.centerx, FloatRect.centery,
        FloatRect.top, FloatRect.bottom, FloatRect.left, FloatRect.right])).2.2
    (0, 0) Contacts.empty 1

/-- **C1 counterexample.** An entity of height 4 whose rectangle is in edge
contact with a full tile's top falls 38 units in one `move` call: afterwards
its rectangle overlaps the tile (`colliderect` holds post-displacement, the
claim's premise), yet because the tile's bottom is within the collision
tolerance of the entity's top (48 − 34 = 14 < 15) no clamp happens, the
bottom contact set stays empty — not `{tile}` — and the entity's bottom edge
is 38, not the tile's top edge 0. -/
theorem straight_down_landing_counterexample :
    (0 : ℚ) < 38 * 1 ∧
    FloatRect.colliderect ⟨0, -4 + 38 * 1, 48, 4⟩ ⟨0, 0, 48, 48⟩ ∧
    (EntityState.move [[⟨⟨0, 0, 48, 48⟩, .full, true, 0⟩]]
        ⟨⟨0, -4, 48, 4⟩, (0, 0), Contacts.empty⟩ (0, 38) 1).tile_contacts.bottom ≠
      {⟨⟨0, 0, 48, 48⟩, .full, true, 0⟩} ∧
    (EntityState.move [[⟨⟨0, 0, 48, 48⟩, .full, true, 0⟩]]
        ⟨⟨0, -4, 48, 4⟩, (0, 0), Contacts.empty⟩ (0, 38) 1).rect.bottom ≠
      FloatRect.top ⟨0, 0, 48, 48⟩ := by
  have hmove :
      (EntityState.move [[⟨⟨0, 0, 48, 48⟩, .full, true, 0⟩]]
          ⟨⟨0, -4, 48, 4⟩, (0, 0), Contacts.empty⟩ (0, 38) 1).tile_contacts.bottom =
        ∅ ∧
      (EntityState.move [[⟨⟨0, 0, 48, 48⟩, .full, true, 0⟩]]
          ⟨⟨0, -4, 48, 4⟩, (0, 0), Contacts.empty⟩ (0, 38) 1).rect.bottom = 38 := by
    norm_num [EntityState.move, chunkYCollision, chunkXCollision, chunkTileStepY,
      chunkTileStepX, Tile.entityYCollision, Tile.entityXCollision,
      Tile.baseYCollision, Tile.baseXCollision, FloatRect.colliderect,
      FloatRect.contact_with, FloatRect.centerx, FloatRect.centery, FloatRect.top,
      FloatRect.bottom, FloatRect.left, FloatRect.right, COLLISION_TOLERANCE,
      TileKind.isRect, Contacts.empty, List.foldl]
  refine ⟨by norm_num, ?_, ?_, ?_⟩
  · norm_num [FloatRect.colliderect, FloatRect.centerx, FloatRect.centery]
  · rw [hmove.1]
    intro habs
    exact absurd (habs ▸ Finset.mem_singleton_self _) (Finset.not_mem_empty _)
  · rw [hmove.2]
    norm_num [FloatRect.top]

/-- **C1 (amended).** If an entity moving straight down (positive y
displacement, zero x component) comes to overlap a single collidable full
tile *and* the overlap leaves the tile's bottom more than the collision
tolerance (15) below the entity's top, then after `CollisionEntity.move` the
bottom contact set is exactly `{tile}` and the entity's bottom edge equals
the tile's top edge. -/
theorem straight_down_landing (tx ty ex ey w h fr vy dt : ℚ)
    (v : ℚ × ℚ) (c : Contacts) (hh : 0 < h) (hdy : 0 < vy * dt)
    (hcol : FloatRect.colliderect ⟨ex, ey + vy * dt, w, h⟩ ⟨tx, ty, 48, 48⟩)
    (htol : FloatRect.bottom ⟨tx, ty, 48, 48⟩ -
        FloatRect.top ⟨ex, ey + vy * dt, w, h⟩ > COLLISION_TOLERANCE) :
    (EntityState.move [[⟨⟨tx, ty, 48, 48⟩, .full, true, fr⟩]]
        ⟨⟨ex, ey, w, h⟩, v, c⟩ (0, vy) dt).tile_contacts.bottom =
      {⟨⟨tx, ty, 48, 48⟩, .full, true, fr⟩} ∧
    (EntityState.move [[⟨⟨tx, ty, 48, 48⟩, .full, true, fr⟩]]
        ⟨⟨ex, ey, w, h⟩, v, c⟩ (0, vy) dt).rect.bottom =
      FloatRect.top ⟨tx, ty, 48, 48⟩ := by
  have hhoriz : |ex + w / 2 - (tx + 48 / 2)| < (w + 48) / 2 := by
    have h1 := hcol.1
    simp only [FloatRect.centerx] at h1
    calc |ex + w / 2 - (tx + 48 / 2)| < w * (1/2) + 48 / 2 := h1
      _ = (w + 48) / 2 := by ring
  simp only [FloatRect.bottom, FloatRect.top, COLLISION_TOLERANCE] at htol
  have hcw : FloatRect.contact_with ⟨ex, ty - h, w, h⟩ ⟨tx, ty, 48, 48⟩ =
      some .bottom := by
    simp only [FloatRect.contact_with, FloatRect.top, FloatRect.bottom,
      FloatRect.left, FloatRect.right, FloatRect.centerx, FloatRect.centery]
    rw [if_neg (by rintro ⟨-, heq⟩; linarith)]
    rw [if_pos ⟨hhoriz, by ring⟩]
  have hY : Tile.entityYCollision ⟨⟨tx, ty, 48, 48⟩, .full, true, fr⟩
      ⟨ex, ey + vy * dt, w, h⟩ (vy * dt) = (⟨ex, ty - h, w, h⟩, some .bottom) := by
    simp only [Tile.entityYCollision, TileKind.isRect, if_true, Tile.baseYCollision,
      if_pos hcol]
    rw [if_pos ⟨hdy, by
      simp only [FloatRect.bottom, FloatRect.top, COLLISION_TOLERANCE]
      linarith⟩]
    simp only [FloatRect.setBottom, FloatRect.top]
    exact Prod.ext rfl hcw
  have hX : Tile.entityXCollision ⟨⟨tx, ty, 48, 48⟩, .full, true, fr⟩
      ⟨ex, ty - h, w, h⟩ 0 = (⟨ex, ty - h, w, h⟩, some .bottom) := by
    simp only [Tile.entityXCollision, TileKind.isRect, if_true, Tile.baseXCollision]
    rw [if_neg (by
      rintro ⟨-, habs⟩
      simp only [FloatRect.centery] at habs
      rw [abs_lt] at habs
      have := habs.1
      linarith)]
    rw [hcw]
  have hmove :
      EntityState.move [[⟨⟨tx, ty, 48, 48⟩, .full, true, fr⟩]]
          ⟨⟨ex, ey, w, h⟩, v, c⟩ (0, vy) dt =
        ⟨⟨ex, ty - h, w, h⟩, v,
          (Contacts.empty.add .bottom ⟨⟨tx, ty, 48, 48⟩, .full, true, fr⟩).add
            .bottom ⟨⟨tx, ty, 48, 48⟩, .full, true, fr⟩⟩ := by
    simp only [EntityState.move, List.foldl, chunkYCollision, chunkXCollision,
      chunkTileStepY, chunkTileStepX, if_true, hY, hX, zero_mul, add_zero]
  rw [hmove]
  constructor
  · simp [Contacts.add, Contacts.empty]
  · simp only [FloatRect.bottom, FloatRect.top]
    ring

/-- Witness for `straight_down_landing`: a 48×20 entity in edge contact with
a full tile's top falls 30 units; the post-move overlap is 38 > 15, so the
move clamps its bottom back to the tile's top and records the bottom
contact. -/
theorem straight_down_landing_witness :
    (EntityState.move [[⟨⟨0, 0, 48, 48⟩, .full, true, 0⟩]]
        ⟨⟨0, -20, 48, 20⟩, (0, 0), Contacts.empty⟩ (0, 30) 1).tile_contacts.bottom =
      {⟨⟨0, 0, 48, 48⟩, .full, true, 0⟩} ∧
    (EntityState.move [[⟨⟨0, 0, 48, 48⟩, .full, true, 0⟩]]
        ⟨⟨0, -20, 48, 20⟩, (0, 0), Contacts.empty⟩ (0, 30) 1).rect.bottom =
      FloatRect.top ⟨0, 0, 48, 48⟩ :=
  straight_down_landing 0 0 0 (-20) 48 20 0 30 1 (0, 0) Contacts.empty
    (by norm_num) (by norm_num)
    (by norm_num [FloatRect.colliderect, FloatRect.centerx, FloatRect.centery])
    (by norm_num [FloatRect.bottom, FloatRect.top, COLLISION_TOLERANCE])

/-- **C5 counterexample.** For a `bottomleft_ramp` of cell size 48 at the
origin, the hitbox outline is the triangle `{(0,48), (48,48), (0,0)}`: its
full-height vertical edge (the tall end) is at `x = rect.left` and its only
corner at `x = rect.right` lies on the bottom edge.  Yet the collision height
for an entity at the tall end (`entity.left = rect.left`) is `rect.top = 0`,
not `rect.bottom = 48` as the claim states — and `(0 penetration)` holds at
`rect.bottom`, not at `rect.top`. -/
theorem ramp_slope_counterexample :
    Tile.get_outline ⟨⟨0, 0, 48, 48⟩, .rampBottomLeft, true, 0⟩ (0, 0) =
      ({((0 : ℚ), (48 : ℚ)), (48, 48), (0, 0)} : Finset (ℚ × ℚ)) ∧
    Tile.rampCollisionHeight ⟨⟨0, 0, 48, 48⟩, .rampBottomLeft, true, 0⟩
        ⟨0, -10, 46, 10⟩ = FloatRect.top ⟨0, 0, 48, 48⟩ ∧
    FloatRect.top ⟨0, 0, 48, 48⟩ ≠ FloatRect.bottom ⟨0, 0, 48, 48⟩ := by
  refine ⟨?_, ?_, ?_⟩
  · norm_num [Tile.get_outline, TileKind.rampIsTop, TileKind.rampIsLeft,
      FloatRect.left, FloatRect.right, FloatRect.top, FloatRect.bottom]
    decide
  · norm_num [Tile.rampCollisionHeight, TileKind.rampIsTop, TileKind.rampIsLeft,
      FloatRect.left, FloatRect.right, FloatRect.top, FloatRect.bottom]
  · norm_num [FloatRect.top, FloatRect.bottom]

/-- **C5 (amended).** For a `bottomleft_ramp` tile of cell size 48 and an
entity rectangle at horizontal positions spanning the ramp's extent, the
collision height is linear with slope 1 in the entity's left edge `e`:
`rect.top + (e - rect.left)`.  It equals `rect.top` (the tall, full-height
end) when the entity is at the ramp's left edge and `rect.bottom`
(0 penetration) when the entity is at the ramp's right edge; moving down
with the entity's bottom at or below that height clamps the bottom exactly
to it and reports a bottom contact. -/
theorem bottomleft_ramp_collision_height (rx ry e ey w h fr ym : ℚ)
    (he1 : rx ≤ e) (he2 : e ≤ rx + 48) :
    Tile.rampCollisionHeight ⟨⟨rx, ry, 48, 48⟩, .rampBottomLeft, true, fr⟩
        ⟨e, ey, w, h⟩ = FloatRect.top ⟨rx, ry, 48, 48⟩ + (e - rx) ∧
    (e = rx →
      Tile.rampCollisionHeight ⟨⟨rx, ry, 48, 48⟩, .rampBottomLeft, true, fr⟩
          ⟨e, ey, w, h⟩ = FloatRect.top ⟨rx, ry, 48, 48⟩) ∧
    (e = rx + 48 →
      Tile.rampCollisionHeight ⟨⟨rx, ry, 48, 48⟩, .rampBottomLeft, true, fr⟩
          ⟨e, ey, w, h⟩ = FloatRect.bottom ⟨rx, ry, 48, 48⟩) ∧
    (0 < ym →
      FloatRect.colliderect ⟨e, ey, w, h⟩ ⟨rx, ry, 48, 48⟩ →
      FloatRect.bottom ⟨e, ey, w, h⟩ ≥ FloatRect.top ⟨rx, ry, 48, 48⟩ + (e - rx) →
      Tile.rampYCollision ⟨⟨rx, ry, 48, 48⟩, .rampBottomLeft, true, fr⟩
          ⟨e, ey, w, h⟩ ym =
        (⟨e, ry + (e - rx) - h, w, h⟩, some .bottom)) := by
  have hch : Tile.rampCollisionHeight ⟨⟨rx, ry, 48, 48⟩, .rampBottomLeft, true, fr⟩
      ⟨e, ey, w, h⟩ = FloatRect.top ⟨rx, ry, 48, 48⟩ + (e - rx) := by
    simp only [Tile.rampCollisionHeight, TileKind.rampIsTop, TileKind.rampIsLeft,
      FloatRect.left, FloatRect.right, FloatRect.top, FloatRect.bottom,
      Bool.false_eq_true, if_false, if_true]
    rw [min_eq_left (by linarith)]
    ring
  refine ⟨hch, fun hrx => ?_, fun hrx => ?_, fun hym hcol hbot => ?_⟩
  · rw [hch, hrx]; ring
  · rw [hch, hrx]
    simp only [FloatRect.top, FloatRect.bottom]
    ring
  · simp only [FloatRect.top, FloatRect.bottom] at hbot
    simp only [Tile.rampYCollision, TileKind.rampIsTop, TileKind.rampIsLeft,
      FloatRect.setBottom, FloatRect.right, FloatRect.left, FloatRect.bottom,
      FloatRect.top, Bool.false_eq_true, and_false, false_and, if_false,
      not_false_iff, and_true, not_false_eq_true, if_true]
    rw [min_eq_left (by linarith)]
    rw [if_pos hcol, if_pos hym]
    rw [if_pos (show ey + h ≥ ry + 48 - (rx + 48 - e) by linarith)]
    have harith : ry + 48 - (rx + 48 - e) - h = ry + (e - rx) - h := by ring
    rw [harith]

/-- Witness for `bottomleft_ramp_collision_height`: a width-46 entity halfway
across a bottom-left ramp at the origin sees collision height 24 and, moving
down, is clamped to it with a bottom contact. -/
theorem bottomleft_ramp_collision_height_witness :
    Tile.rampCollisionHeight ⟨⟨0, 0, 48, 48⟩, .rampBottomLeft, true, 0⟩
        ⟨24, 14, 46, 10⟩ = FloatRect.top ⟨0, 0, 48, 48⟩ + (24 - 0) ∧
    Tile.rampYCollision ⟨⟨0, 0, 48, 48⟩, .rampBottomLeft, true, 0⟩
        ⟨24, 14, 46, 10⟩ 5 = (⟨24, 0 + (24 - 0) - 10, 46, 10⟩, some .bottom) :=
  ⟨(bottomleft_ramp_collision_height 0 0 24 14 46 10 0 5 (by norm_num)
      (by norm_num)).1,
   (bottomleft_ramp_collision_height 0 0 24 14 46 10 0 5 (by norm_num)
      (by norm_num)).2.2.2
     (by norm_num)
     (by norm_num [FloatRect.colliderect, FloatRect.centerx, FloatRect.centery])
     (by norm_num [FloatRect.bottom, FloatRect.top])⟩

/-! ### Spec-reference decompositions (for the refinement claims C6/C7) -/

/-- Reference phase, following the spec's wording for `move`: clear all four
side contact sets and the `"any"` set. -/
def clear_contacts (st : EntityState) : EntityState :=
  { st with tile_contacts := Contacts.empty }

/-- Reference phase: add the y component of the displacement to the
position. -/
def apply_y (st : EntityState) (yMove : ℚ) : EntityState :=
  { st with rect := { st.rect with y := st.rect.y + yMove } }

/-- Reference phase: resolve y-collision against every currently loaded
chunk, further mutating the position when blocked and populating the contact
sets. -/
def resolve_y (world : World) (st : EntityState) (yMove : ℚ) : EntityState :=
  let res := world.foldl (fun acc ch => chunkYCollision ch acc.1 yMove acc.2)
    (st.rect, st.tile_contacts)
  { st with rect := res.1, tile_contacts := res.2 }

/-- Reference phase: add the x component of the displacement to the
position. -/
def apply_x (st : EntityState) (xMove : ℚ) : EntityState :=
  { st with rect := { st.rect with x := st.rect.x + xMove } }

/-- Reference phase: resolve x-collision against every currently loaded
chunk. -/
def resolve_x (world : World) (st : EntityState) (xMove : ℚ) : EntityState :=
  let res := world.foldl (fun acc ch => chunkXCollision ch acc.1 xMove acc.2)
    (st.rect, st.tile_contacts)
  { st with rect := res.1, tile_contacts := res.2 }

/-- The reference sequence the spec describes for `CollisionEntity.move`:
clear the contact sets, then the complete y phase (apply, resolve), then the
complete x phase — y strictly before x. -/
def move_spec_ref (world : World) (st : EntityState) (value : ℚ × ℚ) (dt : ℚ) :
    EntityState :=
  let st1 := clear_contacts st
  let st2 := apply_y st1 (value.2 * dt)
  let st3 := resolve_y world st2 (value.2 * dt)
  let st4 := apply_x st3 (value.1 * dt)
  resolve_x world st4 (value.1 * dt)

/-- The reference sequence the spec describes for `CollisionEntity.update`:
decide gravity from the contact set present on entry (last frame's), then
integrate via `move`, then velocity clamping and tile friction. -/
def update_spec_ref (world : World) (g : ℚ) (st : EntityState) (dt : ℚ) :
    EntityState :=
  let st1 :=
    if st.tile_contacts.bottom = ∅ then st.accelerate (0, g * DEFAULT_GRAVITY) dt
    else st
  let st2 := st1.move world st1.velocity dt
  st2.process_collision.process_tile_friction dt

/-- **C6.** `CollisionEntity.move` is extensionally equal to the spec's
reference sequence: clear all five contact sets; add the y component of the
displacement and resolve y-collision against every loaded chunk; then add
the x component and resolve x-collision — y strictly before x. -/
theorem move_matches_spec_sequence (world : World) (st : EntityState)
    (value : ℚ × ℚ) (dt : ℚ) :
    EntityState.move world st value dt = move_spec_ref world st value dt := by
  unfold EntityState.move move_spec_ref clear_contacts apply_y resolve_y
    apply_x resolve_x
  rcases hy : world.foldl
      (fun acc ch => chunkYCollision ch acc.1 (value.2 * dt) acc.2)
      ({ st.rect with y := st.rect.y + value.2 * dt }, Contacts.empty) with ⟨r2, c2⟩
  simp only [hy]

/-- **C7.** In `CollisionEntity.update`, gravity is applied to the velocity
if and only if the bottom contact set left over from the previous frame's
`move` is empty: `update` equals the reference sequence whose gravity
decision reads the entry contact state, the motion-variable phase is exactly
gravity `accelerate` when that set is empty, and it is the identity when it
is not. -/
theorem update_gravity_uses_last_frame_contacts (world : World) (g : ℚ)
    (st : EntityState) (dt : ℚ) :
    EntityState.update world g st dt = update_spec_ref world g st dt ∧
    (st.tile_contacts.bottom = ∅ →
      st.update_motion_variables g dt = st.accelerate (0, g * DEFAULT_GRAVITY) dt) ∧
    (st.tile_contacts.bottom ≠ ∅ → st.update_motion_variables g dt = st) := by
  refine ⟨?_, fun hemp => ?_, fun hne => ?_⟩
  · unfold EntityState.update update_spec_ref EntityState.update_motion_variables
    rfl
  · rw [EntityState.update_motion_variables, if_pos hemp]
  · rw [EntityState.update_motion_variables, if_neg hne]

/-- Witness for `update_gravity_uses_last_frame_contacts`: with no bottom
contact recorded, the motion-variable phase is exactly the gravity
`accelerate`; the update pipeline agrees with the reference sequence. -/
theorem update_gravity_uses_last_frame_contacts_witness :
    EntityState.update [] 1 ⟨⟨0, 0, 48, 48⟩, (0, 0), Contacts.empty⟩ 1 =
      update_spec_ref [] 1 ⟨⟨0, 0, 48, 48⟩, (0, 0), Contacts.empty⟩ 1 ∧
    EntityState.update_motion_variables 1 ⟨⟨0, 0, 48, 48⟩, (0, 0), Contacts.empty⟩ 1 =
      EntityState.accelerate ⟨⟨0, 0, 48, 48⟩, (0, 0), Contacts.empty⟩
        (0, 1 * DEFAULT_GRAVITY) 1 :=
  ⟨(update_gravity_uses_last_frame_contacts [] 1
      ⟨⟨0, 0, 48, 48⟩, (0, 0), Contacts.empty⟩ 1).1,
   (update_gravity_uses_last_frame_contacts [] 1
      ⟨⟨0, 0, 48, 48⟩, (0, 0), Contacts.empty⟩ 1).2.1 rfl⟩

/-- Membership in the materialized middle-ground set: exactly the non-air
codes whose tile coordinates are not logged as broken. -/
theorem mem_set_middle_ground {codes : List Char} {broken : Finset (ℤ × ℤ)}
    {t : MTile} :
    t ∈ set_middle_ground codes broken ↔
      ∃ i : ℕ, codes[i]? = some t.code ∧
        index_to_tile_coordinates i = (t.x, t.y) ∧ t.code ≠ AIR ∧
        (t.x, t.y) ∉ broken := by
  simp only [set_middle_ground, List.mem_toFinset, List.mem_filterMap]
  constructor
  · rintro ⟨⟨i, c⟩, hmem, hf⟩
    rw [List.mk_mem_enum_iff_getElem?] at hmem
    by_cases hcond : c ≠ AIR ∧ index_to_tile_coordinates i ∉ broken
    · rw [if_pos hcond] at hf
      injection hf with hf
      subst hf
      exact ⟨i, hmem, rfl, hcond.1, hcond.2⟩
    · rw [if_neg hcond] at hf
      exact absurd hf (by simp)
  · rintro ⟨i, hget, hcoords, hair, hbrk⟩
    refine ⟨(i, t.code), ?_, ?_⟩
    · rw [List.mk_mem_enum_iff_getElem?]
      exact hget
    · rw [if_pos ⟨hair, by rw [hcoords]; exact hbrk⟩]
      rw [hcoords]

/-- Tile positions are unique in a materialized middle-ground set: the index
`i` is recovered from `(i % 16, i / 16)`, so two live tiles at the same local
position are the same tile. -/
theorem set_middle_ground_pos_unique {codes : List Char}
    {broken : Finset (ℤ × ℤ)} {t u : MTile}
    (ht : t ∈ set_middle_ground codes broken)
    (hu : u ∈ set_middle_ground codes broken)
    (hx : t.x = u.x) (hy : t.y = u.y) : t = u := by
  obtain ⟨i, hgi, hci, -, -⟩ := mem_set_middle_ground.mp ht
  obtain ⟨j, hgj, hcj, -, -⟩ := mem_set_middle_ground.mp hu
  simp only [index_to_tile_coordinates, Prod.mk.injEq] at hci hcj
  have hij : (i : ℤ) = (j : ℤ) := by
    have hmod : (i : ℤ) % TILES_PER_SIDE = (j : ℤ) % TILES_PER_SIDE := by
      rw [hci.1, hcj.1, hx]
    have hdiv : (i : ℤ) / TILES_PER_SIDE = (j : ℤ) / TILES_PER_SIDE := by
      rw [hci.2, hcj.2, hy]
    calc (i : ℤ) = TILES_PER_SIDE * ((i : ℤ) / TILES_PER_SIDE) +
          (i : ℤ) % TILES_PER_SIDE := (Int.ediv_add_emod _ _).symm
      _ = TILES_PER_SIDE * ((j : ℤ) / TILES_PER_SIDE) +
          (j : ℤ) % TILES_PER_SIDE := by rw [hmod, hdiv]
      _ = (j : ℤ) := Int.ediv_add_emod _ _
  have hij' : i = j := by exact_mod_cast hij
  subst hij'
  have hcode : t.code = u.code := by
    rw [hgi] at hgj
    injection hgj
  cases t
  cases u
  simp_all

/-- **C2.** Materializing a chunk's middle ground from raw codes and a broken
log, then breaking a live breakable tile `t`, yields exactly the middle
ground materialized directly with `t`'s position added to the broken log —
and records that position in the log, so unloading and reloading the chunk
with the updated log reproduces the post-break set. -/
theorem break_then_reload_round_trip (codes : List Char)
    (broken : Finset (ℤ × ℤ)) (breakable : Char → Bool) (t : MTile)
    (hmem : t ∈ set_middle_ground codes broken)
    (hbrk : breakable t.code = true) :
    break_step breakable ⟨set_middle_ground codes broken, broken⟩ (t.x, t.y) =
      ⟨set_middle_ground codes (insert (t.x, t.y) broken),
        insert (t.x, t.y) broken⟩ := by
  rw [break_step, if_pos ⟨t, Finset.mem_filter.mpr ⟨hmem, hbrk, rfl⟩⟩]
  refine congrArg₂ ChunkState.mk ?_ rfl
  ext u
  simp only [Finset.mem_filter]
  constructor
  · rintro ⟨humem, hnm⟩
    obtain ⟨i, hgi, hci, hair, hbr⟩ := mem_set_middle_ground.mp humem
    refine mem_set_middle_ground.mpr ⟨i, hgi, hci, hair, ?_⟩
    rw [Finset.mem_insert]
    rintro (hpos | hold)
    · have hxy : u.x = t.x ∧ u.y = t.y := by
        have := Prod.mk.injEq u.x u.y t.x t.y ▸ hpos
        exact ⟨congrArg Prod.fst hpos, congrArg Prod.snd hpos⟩
      have : u = t := set_middle_ground_pos_unique humem hmem hxy.1 hxy.2
      subst this
      exact hnm ⟨hbrk, hpos⟩
    · exact hbr hold
  · intro humem
    obtain ⟨i, hgi, hci, hair, hbr⟩ := mem_set_middle_ground.mp humem
    rw [Finset.mem_insert] at hbr
    push_neg at hbr
    refine ⟨mem_set_middle_ground.mpr ⟨i, hgi, hci, hair, hbr.2⟩, ?_⟩
    rintro ⟨-, hpos⟩
    exact hbr.1 hpos

/-- Witness for `break_then_reload_round_trip`: a one-tile chunk whose single
breakable tile is broken; the result is the direct materialization with that
position logged as broken. -/
theorem break_then_reload_round_trip_witness :
    break_step (fun c => decide (c = 'a'))
        ⟨set_middle_ground ['a'] ∅, ∅⟩ (0, 0) =
      ⟨set_middle_ground ['a'] (insert (0, 0) ∅), insert (0, 0) ∅⟩ :=
  break_then_reload_round_trip ['a'] ∅ (fun c => decide (c = 'a')) ⟨0, 0, 'a'⟩
    (mem_set_middle_ground.mpr
      ⟨0, rfl, by decide, by decide, Finset.not_mem_empty _⟩)
    (by decide)

/-- Breaking, with any fuel, never grows the live middle-ground set. -/
theorem break_fuel_card_le (breakable : Char → Bool) :
    ∀ (fuel : ℕ) (st : ChunkState) (pos : ℤ × ℤ),
      (break_fuel breakable fuel st pos).mid.card ≤ st.mid.card := by
  intro fuel
  induction fuel with
  | zero => intro st pos; exact le_rfl
  | succ f ih =>
    intro st pos
    rw [break_fuel]
    split_ifs with hne
    · exact (ih _ _).trans ((ih _ _).trans ((ih _ _).trans
        ((ih _ _).trans (Finset.card_filter_le _ _))))
    · exact le_rfl

/-- Fuel-irrelevance of the recursive break: any two fuels exceeding the
number of live tiles give the same result — the recursion is bounded by the
live-tile count because each successful step removes a tile before
recursing. -/
theorem break_fuel_stable (breakable : Char → Bool) :
    ∀ (f : ℕ) (st : ChunkState) (g : ℕ) (pos : ℤ × ℤ),
      st.mid.card < f → st.mid.card < g →
      break_fuel breakable f st pos = break_fuel breakable g st pos := by
  intro f
  induction f with
  | zero => intro st g pos hf _; exact absurd hf (by omega)
  | succ f ih =>
    intro st g pos hf hg
    obtain ⟨g, rfl⟩ : ∃ g', g = g' + 1 := ⟨g - 1, by omega⟩
    rw [break_fuel, break_fuel]
    split_ifs with hne
    · have hcard :
          (st.mid.filter fun t => ¬ breakMatch breakable pos t).card <
            st.mid.card := by
        obtain ⟨t, ht⟩ := hne
        rw [Finset.mem_filter] at ht
        refine Finset.card_lt_card ⟨Finset.filter_subset _ _, fun hsub => ?_⟩
        have := Finset.mem_filter.mp (hsub ht.1)
        exact this.2 ht.2
      set st1 : ChunkState :=
        ⟨st.mid.filter fun t => ¬ breakMatch breakable pos t,
          insert pos st.log⟩ with hst1
      have h1f : st1.mid.card < f := by
        simp only [hst1]
        omega
      have h1g : st1.mid.card < g := by
        simp only [hst1]
        omega
      dsimp only
      rw [ih st1 g (pos.1 - 1, pos.2) h1f h1g]
      have h2f : (break_fuel breakable g st1 (pos.1 - 1, pos.2)).mid.card < f :=
        lt_of_le_of_lt (break_fuel_card_le breakable g st1 _) h1f
      have h2g : (break_fuel breakable g st1 (pos.1 - 1, pos.2)).mid.card < g :=
        lt_of_le_of_lt (break_fuel_card_le breakable g st1 _) h1g
      rw [ih _ g (pos.1 + 1, pos.2) h2f h2g]
      have h3f : (break_fuel breakable g (break_fuel breakable g st1 (pos.1 - 1, pos.2))
          (pos.1 + 1, pos.2)).mid.card < f :=
        lt_of_le_of_lt (break_fuel_card_le breakable g _ _) h2f
      have h3g : (break_fuel breakable g (break_fuel breakable g st1 (pos.1 - 1, pos.2))
          (pos.1 + 1, pos.2)).mid.card < g :=
        lt_of_le_of_lt (break_fuel_card_le breakable g _ _) h2g
      rw [ih _ g (pos.1, pos.2 - 1) h3f h3g]
      have h4f : (break_fuel breakable g (break_fuel breakable g
          (break_fuel breakable g st1 (pos.1 - 1, pos.2)) (pos.1 + 1, pos.2))
          (pos.1, pos.2 - 1)).mid.card < f :=
        lt_of_le_of_lt (break_fuel_card_le breakable g _ _) h3f
      have h4g : (break_fuel breakable g (break_fuel breakable g
          (break_fuel breakable g st1 (pos.1 - 1, pos.2)) (pos.1 + 1, pos.2))
          (pos.1, pos.2 - 1)).mid.card < g :=
        lt_of_le_of_lt (break_fuel_card_le breakable g _ _) h3g
      rw [ih _ g (pos.1, pos.2 + 1) h4f h4g]
    · rfl

/-- **C8.** `break_tile` with `break_surroundings=True` terminates without a
visited-set: on a position-unique live set, each call either is a no-op (no
breakable live tile at the target) or removes exactly one tile before
recursing into the four neighbours, so any fuel exceeding the live-tile
count computes the same (stable) result `break_tile_rec`. -/
theorem break_surroundings_terminates (breakable : Char → Bool)
    (st : ChunkState) (pos : ℤ × ℤ)
    (huniq : ∀ t ∈ st.mid, ∀ u ∈ st.mid, t.x = u.x → t.y = u.y → t = u) :
    (∀ fuel : ℕ, st.mid.card < fuel →
      break_fuel breakable fuel st pos = break_tile_rec breakable st pos) ∧
    (¬ (∃ t ∈ st.mid, breakMatch breakable pos t) →
      break_step breakable st pos = st) ∧
    (∀ t ∈ st.mid, breakMatch breakable pos t →
      (break_step breakable st pos).mid = st.mid.erase t ∧
      (break_step breakable st pos).log = insert pos st.log) := by
  refine ⟨fun fuel hfuel => ?_, fun hno => ?_, fun t ht hmatch => ?_⟩
  · exact break_fuel_stable breakable fuel st (st.mid.card + 1) pos hfuel
      (Nat.lt_succ_self _)
  · rw [break_step, if_neg]
    rw [Finset.filter_nonempty_iff]
    exact hno
  · rw [break_step,
      if_pos (Finset.filter_nonempty_iff.mpr ⟨t, ht, hmatch⟩)]
    refine ⟨?_, rfl⟩
    ext u
    simp only [Finset.mem_filter, Finset.mem_erase]
    constructor
    · rintro ⟨hu, hnP⟩
      refine ⟨fun hut => ?_, hu⟩
      subst hut
      exact hnP hmatch
    · rintro ⟨hne, hu⟩
      refine ⟨hu, fun hP => ?_⟩
      have hcoords : u.x = t.x ∧ u.y = t.y := by
        have h1 := hP.2
        have h2 := hmatch.2
        rw [← h2] at h1
        exact ⟨congrArg Prod.fst h1, congrArg Prod.snd h1⟩
      exact hne (huniq u hu t ht hcoords.1 hcoords.2)

/-- Witness for `break_surroundings_terminates`: a two-tile chunk; fuel 3
(> 2 live tiles) already computes the stable recursive result, and breaking
the tile at the origin removes exactly it while logging its position. -/
theorem break_surroundings_terminates_witness :
    break_fuel (fun c => decide (c = 'a')) 3
        ⟨{⟨0, 0, 'a'⟩, ⟨1, 0, 'a'⟩}, ∅⟩ (0, 0) =
      break_tile_rec (fun c => decide (c = 'a'))
        ⟨{⟨0, 0, 'a'⟩, ⟨1, 0, 'a'⟩}, ∅⟩ (0, 0) ∧
    (break_step (fun c => decide (c = 'a'))
        ⟨{⟨0, 0, 'a'⟩, ⟨1, 0, 'a'⟩}, ∅⟩ (0, 0)).mid =
      ({⟨0, 0, 'a'⟩, ⟨1, 0, 'a'⟩} : Finset MTile).erase ⟨0, 0, 'a'⟩ :=
  ⟨(break_surroundings_terminates (fun c => decide (c = 'a'))
      ⟨{⟨0, 0, 'a'⟩, ⟨1, 0, 'a'⟩}, ∅⟩ (0, 0) (by decide)).1 3 (by decide),
   ((break_surroundings_terminates (fun c => decide (c = 'a'))
      ⟨{⟨0, 0, 'a'⟩, ⟨1, 0, 'a'⟩}, ∅⟩ (0, 0) (by decide)).2.2 ⟨0, 0, 'a'⟩
      (by decide) (by decide)).1⟩

/-- The diamond cell-count sum: summing row widths `2(n − |y|) + 1` over
`y ∈ [-n, n]` gives `2n² + 2n + 1`. -/
theorem sum_diamond : ∀ n : ℕ,
    (∑ y ∈ Finset.Icc (-(n : ℤ)) (n : ℤ), (2 * ((n : ℤ) - |y|) + 1)) =
      2 * (n : ℤ) ^ 2 + 2 * (n : ℤ) + 1 := by
  intro n
  induction n with
  | zero => simp
  | succ n ih =>
    have hdecomp : Finset.Icc (-((n : ℤ) + 1)) ((n : ℤ) + 1) =
        insert (-((n : ℤ) + 1))
          (insert ((n : ℤ) + 1) (Finset.Icc (-(n : ℤ)) (n : ℤ))) := by
      ext a
      simp only [Finset.mem_Icc, Finset.mem_insert]
      omega
    push_cast
    rw [hdecomp]
    rw [Finset.sum_insert (by
      simp only [Finset.mem_insert, Finset.mem_Icc]
      push_neg
      constructor
      · omega
      · intro h
        omega)]
    rw [Finset.sum_insert (by
      simp only [Finset.mem_Icc]
      omega)]
    have hsplit : (∑ y ∈ Finset.Icc (-(n : ℤ)) (n : ℤ),
        (2 * (((n : ℤ) + 1) - |y|) + 1)) =
        ∑ y ∈ Finset.Icc (-(n : ℤ)) (n : ℤ), ((2 * ((n : ℤ) - |y|) + 1) + 2) :=
      Finset.sum_congr rfl (fun y _ => by ring)
    rw [hsplit, Finset.sum_add_distrib, ih, Finset.sum_const, Int.card_Icc]
    have habs1 : |(-((n : ℤ) + 1))| = (n : ℤ) + 1 := by
      rw [abs_neg, abs_of_nonneg (by positivity)]
    have habs2 : |((n : ℤ) + 1)| = (n : ℤ) + 1 := abs_of_nonneg (by positivity)
    rw [habs1, habs2]
    have hcardn : ((n : ℤ) + 1 - -(n : ℤ)).toNat = 2 * n + 1 := by omega
    rw [hcardn, nsmul_eq_mul]
    push_cast
    ring

/-- **C4.** For every focus position and radius `R ≥ 0`, the wanted
chunk-coordinate set around the focus chunk contains exactly `2R² + 2R + 1`
coordinates, and a coordinate belongs to it iff its Manhattan distance from
the focus chunk is at most `R`. -/
theorem allowed_chunk_locations_diamond (loadPos : ℚ × ℚ) (dist : ℤ)
    (hR : 0 ≤ dist) :
    ((get_allowed_chunk_locations loadPos dist).card : ℤ) =
      2 * dist ^ 2 + 2 * dist + 1 ∧
    ∀ q : ℤ × ℤ, q ∈ get_allowed_chunk_locations loadPos dist ↔
      |q.1 - (focus_chunk loadPos).1| + |q.2 - (focus_chunk loadPos).2| ≤ dist := by
  set c : ℤ × ℤ := focus_chunk loadPos with hc
  have hdisj : ∀ y ∈ Finset.Icc (-dist) dist, ∀ z ∈ Finset.Icc (-dist) dist,
      y ≠ z →
      Disjoint
        ((Finset.Icc (-(dist - |y|)) (dist - |y|)).image fun x => (c.1 + x, c.2 + y))
        ((Finset.Icc (-(dist - |z|)) (dist - |z|)).image fun x => (c.1 + x, c.2 + z)) := by
    intro y _ z _ hyz
    rw [Finset.disjoint_left]
    rintro a ha hb
    rw [Finset.mem_image] at ha hb
    obtain ⟨x1, -, rfl⟩ := ha
    obtain ⟨x2, -, heq⟩ := hb
    exact hyz (by simpa using (congrArg Prod.snd heq).symm)
  constructor
  · rw [get_allowed_chunk_locations]
    rw [Finset.card_biUnion hdisj]
    have himg : ∀ y : ℤ,
        (((Finset.Icc (-(dist - |y|)) (dist - |y|)).image
            fun x => (c.1 + x, c.2 + y)).card) = (2 * (dist - |y|) + 1).toNat := by
      intro y
      rw [Finset.card_image_of_injective _ (fun a b hab => by
        simpa using congrArg Prod.fst hab)]
      rw [Int.card_Icc]
      congr 1
      ring
    rw [Finset.sum_congr rfl (fun y _ => himg y), Nat.cast_sum]
    have hcast : ∀ y ∈ Finset.Icc (-dist) dist,
        (((2 * (dist - |y|) + 1).toNat : ℤ)) = 2 * (dist - |y|) + 1 := by
      intro y hy
      rw [Finset.mem_Icc] at hy
      rw [Int.toNat_of_nonneg]
      have : |y| ≤ dist := abs_le.mpr ⟨hy.1, hy.2⟩
      linarith
    rw [Finset.sum_congr rfl hcast]
    obtain ⟨n, rfl⟩ : ∃ n : ℕ, dist = (n : ℤ) :=
      ⟨dist.toNat, (Int.toNat_of_nonneg hR).symm⟩
    exact sum_diamond n
  · intro q
    rw [get_allowed_chunk_locations]
    rw [Finset.mem_biUnion]
    constructor
    · rintro ⟨y, hy, hq⟩
      rw [Finset.mem_image] at hq
      obtain ⟨x, hx, rfl⟩ := hq
      rw [Finset.mem_Icc] at hy hx
      simp only [add_sub_cancel_left]
      simp only [Int.abs_eq_natAbs] at hx ⊢
      omega
    · intro hq
      refine ⟨q.2 - c.2, ?_, ?_⟩
      · rw [Finset.mem_Icc]
        simp only [Int.abs_eq_natAbs] at hq
        omega
      · rw [Finset.mem_image]
        refine ⟨q.1 - c.1, ?_, ?_⟩
        · rw [Finset.mem_Icc]
          simp only [Int.abs_eq_natAbs] at hq ⊢
          omega
        · refine Prod.ext ?_ ?_ <;> simp

/-- Witness for `allowed_chunk_locations_diamond`: radius 2 around focus
`(0, 0)` gives 13 chunks, and `(1, 1)` (Manhattan distance 2) is wanted. -/
theorem allowed_chunk_locations_diamond_witness :
    ((get_allowed_chunk_locations (0, 0) 2).card : ℤ) = 13 ∧
    ((1, 1) ∈ get_allowed_chunk_locations (0, 0) 2 ↔
      |1 - (focus_chunk (0, 0)).1| + |1 - (focus_chunk (0, 0)).2| ≤ 2) :=
  ⟨by
    rw [(allowed_chunk_locations_diamond (0, 0) 2 (by norm_num)).1]
    norm_num,
   (allowed_chunk_locations_diamond (0, 0) 2 (by norm_num)).2 (1, 1)⟩

/-- **C9.** With process distance 900 (half-width 900, half-height 450),
kill depth 50000 and focus `(0, 0)`, one `EntityManager.update` call:
an entity centered at `(800, 0)` is updated and counted (whatever its
flags); an entity centered at `(1000, 0)` with
`kill_when_out_of_range = False` is neither updated nor removed; with
`kill_when_out_of_range = True` it is removed by that single call. -/
theorem proximity_update_gating (upd : ManagedEntity → ManagedEntity)
    (w h : ℚ) (hw : 0 ≤ w) (hh : 0 ≤ h) (a k : Bool) :
    manager_update 900 50000 upd (0, 0)
        [⟨⟨800 - w / 2, -(h / 2), w, h⟩, a, k⟩] =
      ([upd ⟨⟨800 - w / 2, -(h / 2), w, h⟩, a, k⟩], 1) ∧
    manager_update 900 50000 upd (0, 0)
        [⟨⟨1000 - w / 2, -(h / 2), w, h⟩, false, false⟩] =
      ([⟨⟨1000 - w / 2, -(h / 2), w, h⟩, false, false⟩], 0) ∧
    manager_update 900 50000 upd (0, 0)
        [⟨⟨1000 - w / 2, -(h / 2), w, h⟩, false, true⟩] = ([], 0) := by
  have hdepth : ∀ v : ℚ, ¬ ((⟨⟨v - w / 2, -(h / 2), w, h⟩, a, k⟩ :
      ManagedEntity).rect.y > 50000) := by
    intro v
    show ¬ (-(h / 2) > (50000 : ℚ))
    linarith
  refine ⟨?_, ?_, ?_⟩
  · simp only [manager_update, List.foldl, manager_step]
    rw [if_neg (by show ¬ (-(h / 2) > (50000 : ℚ)); linarith)]
    rw [if_pos (Or.inr ⟨by
      show |FloatRect.centerx ⟨800 - w / 2, -(h / 2), w, h⟩ - 0| ≤ 900
      rw [show FloatRect.centerx ⟨800 - w / 2, -(h / 2), w, h⟩ - 0 = 800 from by
        simp [FloatRect.centerx]]
      norm_num, by
      show |FloatRect.centery ⟨800 - w / 2, -(h / 2), w, h⟩ - 0| ≤ 900 / 2
      rw [show FloatRect.centery ⟨800 - w / 2, -(h / 2), w, h⟩ - 0 = 0 from by
        simp [FloatRect.centery]]
      norm_num⟩)]
    simp
  · simp only [manager_update, List.foldl, manager_step]
    rw [if_neg (by show ¬ (-(h / 2) > (50000 : ℚ)); linarith)]
    rw [if_neg (by
      rintro (hfalse | ⟨habs, -⟩)
      · exact absurd hfalse (by simp)
      · rw [show FloatRect.centerx ⟨1000 - w / 2, -(h / 2), w, h⟩ - 0 = 1000 from by
          simp [FloatRect.centerx]] at habs
        norm_num at habs)]
    rw [if_neg (by simp)]
    simp
  · simp only [manager_update, List.foldl, manager_step]
    rw [if_neg (by show ¬ (-(h / 2) > (50000 : ℚ)); linarith)]
    rw [if_neg (by
      rintro (hfalse | ⟨habs, -⟩)
      · exact absurd hfalse (by simp)
      · rw [show FloatRect.centerx ⟨1000 - w / 2, -(h / 2), w, h⟩ - 0 = 1000 from by
          simp [FloatRect.centerx]] at habs
        norm_num at habs)]
    simp

/-- Witness for `proximity_update_gating`: 48×48 entities with the identity
per-frame update. -/
theorem proximity_update_gating_witness :
    manager_update 900 50000 id (0, 0)
        [⟨⟨800 - 48 / 2, -(48 / 2), 48, 48⟩, false, false⟩] =
      ([id ⟨⟨800 - 48 / 2, -(48 / 2), 48, 48⟩, false, false⟩], 1) ∧
    manager_update 900 50000 id (0, 0)
        [⟨⟨1000 - 48 / 2, -(48 / 2), 48, 48⟩, false, false⟩] =
      ([⟨⟨1000 - 48 / 2, -(48 / 2), 48, 48⟩, false, false⟩], 0) ∧
    manager_update 900 50000 id (0, 0)
        [⟨⟨1000 - 48 / 2, -(48 / 2), 48, 48⟩, false, true⟩] = ([], 0) :=
  proximity_update_gating id 48 48 (by norm_num) (by norm_num) false false

end Game
